import Mathlib

/-!
Verification development for the session / credential-cache subsystem of the
mcp-sunsama server (source files: `src/auth/http.ts` — the unnamed part_001 —
together with `src/transports/http.ts` and `src/config/transport.ts`).

Modelling conventions, matching the TypeScript source:
* JavaScript strings are Lean `String`s (sequences of code points);
  JS truthiness of an optional string (`undefined`/empty ⇒ falsy) is
  `strTruthy`.
* `Map<string, V>` is an association list `List (String × V)` with
  `Map.set` / `Map.get` / `Map.delete` semantics (`mapSet`, `mapLookup`,
  `mapDelete`); insertion order is preserved as in JS.
* Timestamps (`Date.now()`) are integers (milliseconds).
* The SHA-256 digest step of `getCacheKey` / `getTokenCacheKey` is modelled as
  the identity on the pre-hash input string: SHA-256 is deterministic, and the
  specification treats it as injective, so cache-key identity coincides with
  pre-hash-input identity. `getCacheKey`/`getTokenCacheKey` here therefore
  return exactly the string the source feeds to `createHash('sha256').update`.
* `SunsamaClient` handles are opaque identifiers (`Nat`); the upstream
  `login` call is represented by the event that settles a pending
  authentication promise (`settleLoginSuccess` / `settleLoginFailure`), and
  `logout()` calls are recorded in a log of client identifiers.
* JavaScript is single-threaded with run-to-completion semantics, so the
  synchronous prefix of each `async` authenticate call (everything up to
  either returning a cached/pending value or registering the new auth
  promise) is one atomic step (`authenticateBasicStart`,
  `authenticateWithTokenStart`), and the continuation that runs when the
  upstream login settles is another (`settleLoginSuccess`,
  `settleLoginFailure`).
-/

/-- JS truthiness of a `string | undefined` value: `undefined` and the empty
string are falsy. -/
def strTruthy : Option String → Bool
  | none => false
  | some s => s ≠ ""

/-- `h?.startsWith(p)` for an optional header `h` (prefix test expressed on
the code-point lists, which is what `String.startsWith` computes). -/
def strStartsWith (h : Option String) (p : String) : Bool :=
  match h with
  | none => false
  | some s => p.toList.isPrefixOf s.toList

/-- `List.replaceFirst` on code points: `s.replace(pat, '')` in JS replaces only
the first occurrence of `pat`; this removes it. -/
def stripFirstAux (pat : List Char) : List Char → List Char
  | [] => []
  | c :: rest =>
    if pat.isPrefixOf (c :: rest) then (c :: rest).drop pat.length
    else c :: stripFirstAux pat rest

/-- `s.replace(pat, '')` on JS strings: removes the first occurrence of `pat`. -/
def jsStripFirst (s pat : String) : String :=
  String.mk (stripFirstAux pat.toList s.toList)

/- ### Map<string, V> as an association list -/

/-- `Map.get`: value of the entry with key `k`, if present. -/
def mapLookup (k : String) : List (String × α) → Option α
  | [] => none
  | (k₁, v₁) :: rest => if k₁ = k then some v₁ else mapLookup k rest

/-- `Map.set`: replace in place if the key is present (preserving order),
otherwise append. -/
def mapSet (k : String) (v : α) : List (String × α) → List (String × α)
  | [] => [(k, v)]
  | (k₁, v₁) :: rest => if k₁ = k then (k, v) :: rest else (k₁, v₁) :: mapSet k v rest

/-- `Map.delete`: remove the entry with key `k` (association lists reachable
from `Map` operations have unique keys, so filtering is the same as removing
the one entry). -/
def mapDelete (k : String) (m : List (String × α)) : List (String × α) :=
  m.filter (fun p => p.1 ≠ k)

theorem mapLookup_mapSet_self (k : String) (v : α) (m : List (String × α)) :
    mapLookup k (mapSet k v m) = some v := by
  induction m with
  | nil => simp [mapSet, mapLookup]
  | cons hd tl ih =>
    obtain ⟨a, b⟩ := hd
    by_cases h : a = k
    · subst h
      simp [mapSet, mapLookup]
    · simp [mapSet, mapLookup, h, ih]

theorem mapLookup_mapSet_ne (k k₁ : String) (v : α) (m : List (String × α))
    (h : k₁ ≠ k) : mapLookup k₁ (mapSet k v m) = mapLookup k₁ m := by
  induction m with
  | nil => simp [mapSet, mapLookup, Ne.symm h]
  | cons hd tl ih =>
    obtain ⟨a, b⟩ := hd
    by_cases h₂ : a = k
    · subst h₂
      simp [mapSet, mapLookup, Ne.symm h]
    · simp [mapSet, mapLookup, h₂, ih]

theorem mapLookup_mapDelete_self (k : String) (m : List (String × α)) :
    mapLookup k (mapDelete k m) = none := by
  induction m with
  | nil => simp [mapDelete, mapLookup]
  | cons hd tl ih =>
    obtain ⟨a, b⟩ := hd
    by_cases h : a = k
    · subst h
      simpa [mapDelete, mapLookup] using ih
    · simpa [mapDelete, mapLookup, h] using ih

theorem mapDelete_cons_self (k : String) (b : α) (m : List (String × α)) :
    mapDelete k ((k, b) :: m) = mapDelete k m := by
  simp [mapDelete]

theorem mapDelete_cons_ne (k a : String) (b : α) (m : List (String × α))
    (h : a ≠ k) : mapDelete k ((a, b) :: m) = (a, b) :: mapDelete k m := by
  simp [mapDelete, h]

theorem mapLookup_mapDelete_ne (k k₁ : String) (m : List (String × α))
    (h : k₁ ≠ k) : mapLookup k₁ (mapDelete k m) = mapLookup k₁ m := by
  induction m with
  | nil => simp [mapDelete, mapLookup]
  | cons hd tl ih =>
    obtain ⟨a, b⟩ := hd
    by_cases h₂ : a = k
    · subst h₂
      rw [mapDelete_cons_self, ih]
      simp [mapLookup, Ne.symm h]
    · rw [mapDelete_cons_ne _ _ _ _ h₂]
      simp [mapLookup, ih]

theorem mem_mapSet (p : String × α) (k : String) (v : α) (m : List (String × α))
    (h : p ∈ mapSet k v m) : p = (k, v) ∨ p ∈ m := by
  induction m with
  | nil => simpa [mapSet] using h
  | cons hd tl ih =>
    obtain ⟨a, b⟩ := hd
    by_cases h₂ : a = k
    · subst h₂
      simp only [mapSet, if_pos, List.mem_cons] at h
      rcases h with h₃ | h₃
      · exact Or.inl h₃
      · exact Or.inr (List.mem_cons_of_mem _ h₃)
    · simp only [mapSet, if_neg h₂, List.mem_cons] at h
      rcases h with h₃ | h₃
      · exact Or.inr (by simp [h₃])
      · rcases ih h₃ with h₄ | h₄
        · exact Or.inl h₄
        · exact Or.inr (List.mem_cons_of_mem _ h₄)

theorem mem_mapDelete (p : String × α) (k : String) (m : List (String × α))
    (h : p ∈ mapDelete k m) : p ∈ m :=
  List.mem_of_mem_filter h

theorem mapLookup_mem (k : String) (v : α) (m : List (String × α))
    (h : mapLookup k m = some v) : (k, v) ∈ m := by
  induction m with
  | nil => simp [mapLookup] at h
  | cons hd tl ih =>
    obtain ⟨a, b⟩ := hd
    by_cases h₂ : a = k
    · subst h₂
      simp [mapLookup] at h
      subst h
      simp
    · simp only [mapLookup, if_neg h₂] at h
      exact List.mem_cons_of_mem _ (ih h)

/- ### Data model (src/auth/types.ts, src/config/session-config.ts) -/

/-- `AuthMethod` from `src/auth/types.ts`: `"basic" | "bearer" | "query"`. -/
inductive AuthMethod
  | basic
  | bearer
  | query
deriving DecidableEq, Repr

/-- `SessionData` from `src/auth/types.ts`. The `sunsamaClient` handle is an
opaque identifier. `authMethod?` is optional. -/
structure SessionData where
  sunsamaClient : Nat
  email : String
  createdAt : Int
  lastAccessedAt : Int
  authMethod : Option AuthMethod
deriving DecidableEq, Repr

/-- The TTL configuration consumed by `src/auth/http.ts`
(`CLIENT_IDLE_TIMEOUT`, `CLIENT_MAX_LIFETIME` from `getSessionConfig()`),
in milliseconds. -/
structure SessionConfig where
  CLIENT_IDLE_TIMEOUT : Int
  CLIENT_MAX_LIFETIME : Int
deriving DecidableEq, Repr

/- ### Credential hashing and token validation (src/auth/http.ts) -/

/-- `getCacheKey(email, password)`: the string fed to
`createHash('sha256').update(...)` is `` `${email}:${password}` ``; the digest
step is modelled as the identity (SHA-256 deterministic, treated as
injective), so this returns the pre-hash input itself. -/
def getCacheKey (email password : String) : String :=
  email ++ ":" ++ password

/-- `getTokenCacheKey(token)`: the pre-hash input is `` `token:${token}` ``. -/
def getTokenCacheKey (token : String) : String :=
  "token:" ++ token

/-- `validateToken(providedToken, expectedToken)`: false on empty/missing
inputs, false on differing byte lengths (the dummy self-comparison is a
timing measure only), otherwise `timingSafeEqual` on the UTF-8 buffers, which
is byte-for-byte equality, i.e. string equality. -/
def validateToken (providedToken expectedToken : String) : Bool :=
  if providedToken == "" || expectedToken == "" then false
  else if providedToken.utf8ByteSize != expectedToken.utf8ByteSize then false
  else providedToken == expectedToken

/- ### Header parsing (src/auth/http.ts) -/

/-- Result of `parseBasicAuth`. -/
structure BasicCreds where
  email : String
  password : String
deriving DecidableEq, Repr

/-- The part of `parseBasicAuth` that runs on the base64-decoded credential
string: find the first `':'`; throw `"Invalid Basic Auth format"` when there
is none; split into `email` (before the first colon) and `password` (after
it); throw when `email` is empty (`!email`; `password === undefined` is never
true of a string, so that disjunct is vacuous). -/
def parseBasicAuthDecoded (credentials : String) : Except String BasicCreds :=
  if credentials.toList.contains ':' then
    let email := String.mk (credentials.toList.takeWhile (fun c => c != ':'))
    let password := String.mk ((credentials.toList.dropWhile (fun c => c != ':')).drop 1)
    if email = "" then Except.error "Invalid Basic Auth format"
    else Except.ok { email := email, password := password }
  else Except.error "Invalid Basic Auth format"

/-- `parseBasicAuth(authHeader)`: strip the first occurrence of `'Basic '`
(JS `String.replace` with a string pattern), base64-decode the remainder to
an ascii string (`decode` abstracts `Buffer.from(s, 'base64').toString('ascii')`),
then split at the first colon. -/
def parseBasicAuth (decode : String → String) (authHeader : String) : Except String BasicCreds :=
  let base64Credentials := jsStripFirst authHeader "Basic "
  let credentials := decode base64Credentials
  parseBasicAuthDecoded credentials

/-- `parseBearerToken(authHeader)`: strip the first `'Bearer '`; throw
`"Invalid Bearer token format"` when the remainder is empty. -/
def parseBearerToken (authHeader : String) : Except String String :=
  let token := jsStripFirst authHeader "Bearer "
  if token = "" then Except.error "Invalid Bearer token format"
  else Except.ok token

/- ### Client cache validity and sweep (src/auth/http.ts) -/

/-- `isClientValid(sessionData)`: valid iff `idleTime < CLIENT_IDLE_TIMEOUT`
and `lifetime < CLIENT_MAX_LIFETIME` (the source reads `Date.now()` itself;
here the current instant is the `now` argument). -/
def isClientValid (cfg : SessionConfig) (now : Int) (sessionData : SessionData) : Bool :=
  (now - sessionData.lastAccessedAt < cfg.CLIENT_IDLE_TIMEOUT) &&
  (now - sessionData.createdAt < cfg.CLIENT_MAX_LIFETIME)

/-- `cleanupExpiredClients()`: iterate over the cache; every entry failing
`isClientValid` has its client's `logout()` invoked — inside `try { ... }
catch { ... }`, so a throwing logout (`logoutResult` is the outcome oracle,
indexed by client handle) is swallowed and the sweep continues either way —
and is then deleted. Returns the surviving cache and the list of client
handles whose `logout()` was invoked, in iteration order. -/
def cleanupExpiredClients (cfg : SessionConfig) (logoutResult : Nat → Except String Unit)
    (now : Int) : List (String × SessionData) → List (String × SessionData) × List Nat
  | [] => ([], [])
  | (k, sd) :: rest =>
    if isClientValid cfg now sd then
      let r := cleanupExpiredClients cfg logoutResult now rest
      ((k, sd) :: r.1, r.2)
    else
      match logoutResult sd.sunsamaClient with
      | Except.ok _ =>
        let r := cleanupExpiredClients cfg logoutResult now rest
        (r.1, sd.sunsamaClient :: r.2)
      | Except.error _ =>
        let r := cleanupExpiredClients cfg logoutResult now rest
        (r.1, sd.sunsamaClient :: r.2)

/- ### Single-flight authentication state machine (src/auth/http.ts) -/

/-- The module-level mutable state of `src/auth/http.ts`, plus
instrumentation: `clientCache` and `authPromises` are the two `Map`s;
`nextPromiseId` allocates identities for auth promises; `loginsStarted`
counts upstream `sunsamaClient.login(...)` calls begun; `logoutLog` records
`logout()` invocations (client handles, in order). -/
structure AuthSys where
  clientCache : List (String × SessionData)
  authPromises : List (String × Nat)
  nextPromiseId : Nat
  loginsStarted : Nat
  logoutLog : List Nat
deriving DecidableEq, Repr

/-- Outcome of the synchronous prefix of an authenticate call: await an
existing pending promise, return a (touched) valid cached entry, or register
a fresh pending promise and begin an upstream login. All callers holding the
same promise id resolve to that one promise's eventual result. -/
inductive StartResult
  | awaitPending (pid : Nat)
  | reuseCached (sd : SessionData)
  | started (pid : Nat)
deriving DecidableEq, Repr

/-- Registering the new auth promise: `authPromises.set(cacheKey, authPromise)`
plus beginning the upstream login inside it (lines 330–354 / 227–251). -/
def startLoginPromise (cacheKey : String) (s : AuthSys) : StartResult × AuthSys :=
  (StartResult.started s.nextPromiseId,
   { s with authPromises := mapSet cacheKey s.nextPromiseId s.authPromises,
            nextPromiseId := s.nextPromiseId + 1,
            loginsStarted := s.loginsStarted + 1 })

/-- Synchronous prefix of the Basic-Auth arm of `authenticateHttpRequest`
(lines 296–356), after `parseBasicAuth` succeeded: compute the cache key and
`now`; await a pending promise if present; else reuse a valid cached entry
(mutating `lastAccessedAt` and `authMethod` in place); else log out and
delete an expired entry; then register a new auth promise. -/
def authenticateBasicStart (cfg : SessionConfig) (email password : String)
    (now : Int) (s : AuthSys) : StartResult × AuthSys :=
  let cacheKey := getCacheKey email password
  match mapLookup cacheKey s.authPromises with
  | some pid => (StartResult.awaitPending pid, s)
  | none =>
    match mapLookup cacheKey s.clientCache with
    | some cached =>
      if isClientValid cfg now cached then
        let touched := { cached with lastAccessedAt := now, authMethod := some AuthMethod.basic }
        (StartResult.reuseCached touched,
         { s with clientCache := mapSet cacheKey touched s.clientCache })
      else
        startLoginPromise cacheKey
          { s with clientCache := mapDelete cacheKey s.clientCache,
                   logoutLog := s.logoutLog ++ [cached.sunsamaClient] }
    | none => startLoginPromise cacheKey s

/-- The `SUNSAMA_EMAIL`/`SUNSAMA_PASSWORD` environment check of
`authenticateWithToken` (lines 218–223), which sits between the cache miss
and the creation of the auth promise. -/
def tokenEnvGateThenStart (envEmail envPassword : Option String) (cacheKey : String)
    (s : AuthSys) : Except String StartResult × AuthSys :=
  if !(strTruthy envEmail) || !(strTruthy envPassword) then
    (Except.error "SUNSAMA_EMAIL and SUNSAMA_PASSWORD must be set when using token authentication", s)
  else
    let r := startLoginPromise cacheKey s
    (Except.ok r.1, r.2)

/-- Synchronous prefix of `authenticateWithToken(providedToken, authMethod)`
(lines 173–253): require a configured `MCP_AUTH_TOKEN`; validate the provided
token (timing-safe); then the same pending/cache/start sequence as the basic
arm, keyed by `getTokenCacheKey`, with the env-credential gate before the
login starts. -/
def authenticateWithTokenStart (cfg : SessionConfig)
    (mcpAuthToken envEmail envPassword : Option String)
    (providedToken : String) (authMethod : AuthMethod) (now : Int) (s : AuthSys) :
    Except String StartResult × AuthSys :=
  if !(strTruthy mcpAuthToken) then
    (Except.error "MCP_AUTH_TOKEN not configured on server", s)
  else if !(validateToken providedToken (mcpAuthToken.getD "")) then
    (Except.error "Invalid authentication token", s)
  else
    let cacheKey := getTokenCacheKey providedToken
    match mapLookup cacheKey s.authPromises with
    | some pid => (Except.ok (StartResult.awaitPending pid), s)
    | none =>
      match mapLookup cacheKey s.clientCache with
      | some cached =>
        if isClientValid cfg now cached then
          let touched := { cached with lastAccessedAt := now, authMethod := some authMethod }
          (Except.ok (StartResult.reuseCached touched),
           { s with clientCache := mapSet cacheKey touched s.clientCache })
        else
          tokenEnvGateThenStart envEmail envPassword cacheKey
            { s with clientCache := mapDelete cacheKey s.clientCache,
                     logoutLog := s.logoutLog ++ [cached.sunsamaClient] }
      | none => tokenEnvGateThenStart envEmail envPassword cacheKey s

/-- The continuation inside the auth promise when `sunsamaClient.login`
succeeds (lines 332–346 / 229–243): build the `SessionData` with
`createdAt = lastAccessedAt = now` (the `now` captured before the login),
`clientCache.set(cacheKey, sessionData)`, then the `finally` block
`authPromises.delete(cacheKey)`. Returns the session data every waiter of
this promise resolves to, and the new state. -/
def settleLoginSuccess (cacheKey email : String) (authMethod : AuthMethod)
    (now : Int) (clientId : Nat) (s : AuthSys) : SessionData × AuthSys :=
  let sessionData : SessionData :=
    { sunsamaClient := clientId, email := email, createdAt := now,
      lastAccessedAt := now, authMethod := some authMethod }
  (sessionData,
   { s with clientCache := mapSet cacheKey sessionData s.clientCache,
            authPromises := mapDelete cacheKey s.authPromises })

/-- The continuation when `sunsamaClient.login` rejects: only the `finally`
block runs — `authPromises.delete(cacheKey)` — and the rejection propagates
to every waiter of this promise; the client cache is not touched. -/
def settleLoginFailure (cacheKey : String) (s : AuthSys) : AuthSys :=
  { s with authPromises := mapDelete cacheKey s.authPromises }

/-- `n` successive synchronous prefixes of basic-path authenticate calls for
the same credentials, all arriving before any login settles (JS
run-to-completion makes each prefix atomic). Returns the final state and the
per-call outcomes in arrival order. -/
def runBasicStarts (cfg : SessionConfig) (email password : String) (now : Int) :
    Nat → AuthSys → AuthSys × List StartResult
  | 0, s => (s, [])
  | Nat.succ n, s =>
    let r := authenticateBasicStart cfg email password now s
    let rest := runBasicStarts cfg email password now n r.2
    (rest.1, r.1 :: rest.2)

/- ### Authentication dispatcher (src/auth/http.ts, authenticateHttpRequest) -/

/-- Which arm of `authenticateHttpRequest` handles the request. -/
inductive DispatchResult
  | tokenAuth (token : String) (authMethod : AuthMethod)
  | basicHeader (authHeader : String)
deriving DecidableEq, Repr

/-- Lines 290–293: `if (!authHeader || !authHeader.startsWith('Basic '))
throw new Error("Basic Auth required")`, else continue into the Basic-Auth
arm with the header. -/
def basicAuthGate (authHeader : Option String) : Except String DispatchResult :=
  if !(strTruthy authHeader) || !(strStartsWith authHeader "Basic ") then
    Except.error "Basic Auth required"
  else
    Except.ok (DispatchResult.basicHeader (authHeader.getD ""))

/-- Credential-scheme dispatch of `authenticateHttpRequest(authHeader?,
queryToken?)` (lines 264–295): when `MCP_AUTH_TOKEN` is configured (truthy),
priority is query token, then Bearer header (parsed, may throw), then Basic
fall-through; a missing header in token mode throws the taxonomy error; any
other case (and the whole non-token mode) falls to the Basic-Auth gate. -/
def dispatchAuth (mcpAuthToken authHeader queryToken : Option String) :
    Except String DispatchResult :=
  if strTruthy mcpAuthToken then
    if strTruthy queryToken then
      Except.ok (DispatchResult.tokenAuth (queryToken.getD "") AuthMethod.query)
    else if strStartsWith authHeader "Bearer " then
      match parseBearerToken (authHeader.getD "") with
      | Except.error e => Except.error e
      | Except.ok token => Except.ok (DispatchResult.tokenAuth token AuthMethod.bearer)
    else if strStartsWith authHeader "Basic " then
      basicAuthGate authHeader
    else if !(strTruthy authHeader) then
      Except.error "Authentication required: provide token in query parameter (?token=xxx), Bearer header, or Basic Auth"
    else
      basicAuthGate authHeader
  else
    basicAuthGate authHeader

/-- Full synchronous prefix of `authenticateHttpRequest`: dispatch on the
credential scheme, then run the corresponding arm (`authenticateWithToken`,
or `parseBasicAuth` followed by the basic arm). `decode` abstracts the
base64-to-ascii decoding of `parseBasicAuth`. -/
def authenticateHttpRequestStart (cfg : SessionConfig)
    (mcpAuthToken envEmail envPassword : Option String) (decode : String → String)
    (authHeader queryToken : Option String) (now : Int) (s : AuthSys) :
    Except String StartResult × AuthSys :=
  match dispatchAuth mcpAuthToken authHeader queryToken with
  | Except.error e => (Except.error e, s)
  | Except.ok (DispatchResult.tokenAuth token m) =>
    authenticateWithTokenStart cfg mcpAuthToken envEmail envPassword token m now s
  | Except.ok (DispatchResult.basicHeader h) =>
    match parseBasicAuth decode h with
    | Except.error e => (Except.error e, s)
    | Except.ok creds =>
      let r := authenticateBasicStart cfg creds.email creds.password now s
      (Except.ok r.1, r.2)

/- ### Session initialization (src/transports/http.ts, POST initialize branch) -/

/-- Lines 153–156 of `src/transports/http.ts`: the API-key shortcut is taken
iff `MCP_API_KEY` is configured (truthy) and the `X-MCP-API-Key` header
strictly equals it. `apiKeyHeader` is the header value after the `.trim()`
applied at extraction (`(req.headers["x-mcp-api-key"])?.trim()`), so the
model receives the already-trimmed string. -/
def usesApiKeyPath (expectedKey apiKeyHeader : Option String) : Bool :=
  strTruthy expectedKey &&
    (match apiKeyHeader with
     | none => false
     | some h => h == expectedKey.getD "")

/-- What the new-initialize branch stores as the session's `SessionData`:
either the synthetic `{ method: "api-key", subject: "api-key-client" }`
object (cast to `SessionData`), or the value produced by
`authenticateHttpRequest`; or the authentication error it threw. -/
inductive InitResult
  | apiKeySession
  | authSession (r : StartResult)
  | authFailed (e : String)
deriving DecidableEq, Repr

/-- Whether an initialization outcome's stored `SessionData` was produced by
the `authenticateHttpRequest` path. -/
def initFromAuthenticate : InitResult → Bool
  | InitResult.authSession _ => true
  | _ => false

/-- The new-initialize branch of the POST handler (lines 149–185 of
`src/transports/http.ts`): prefer the API key; otherwise call
`authenticateHttpRequest(authHeader)` — note: no query token is passed. The
resulting `sessionData` is what `sessionManager.createSession` stores for the
new session id. -/
def initializeNewSession (cfg : SessionConfig)
    (expectedKey apiKeyHeader mcpAuthToken envEmail envPassword : Option String)
    (decode : String → String) (authHeader : Option String) (now : Int) (s : AuthSys) :
    InitResult × AuthSys :=
  if usesApiKeyPath expectedKey apiKeyHeader then
    (InitResult.apiKeySession, s)
  else
    match authenticateHttpRequestStart cfg mcpAuthToken envEmail envPassword decode
        authHeader none now s with
    | (Except.error e, s₁) => (InitResult.authFailed e, s₁)
    | (Except.ok r, s₁) => (InitResult.authSession r, s₁)

/-- The empty module state at process start: both maps empty. -/
def emptyAuthSys : AuthSys :=
  { clientCache := [], authPromises := [], nextPromiseId := 0,
    loginsStarted := 0, logoutLog := [] }

/-- The in-place mutation performed on a cache hit (`cached.lastAccessedAt =
now; cached.authMethod = m`), as a function on the entry. -/
def touchSession (sd : SessionData) (now : Int) (m : AuthMethod) : SessionData :=
  { sd with lastAccessedAt := now, authMethod := some m }

/-- Invariant of §3 of the specification: every cache entry satisfies
`lastAccessedAt >= createdAt`. -/
def cacheCreatedLeLast (cache : List (String × SessionData)) : Prop :=
  ∀ p ∈ cache, (p : String × SessionData).2.createdAt ≤ p.2.lastAccessedAt

/-- Wall-clock monotonicity at instant `now`: every entry in the cache was
created at or before `now`. -/
def cacheCreatedLe (cache : List (String × SessionData)) (now : Int) : Prop :=
  ∀ p ∈ cache, (p : String × SessionData).2.createdAt ≤ now

/- ### Claim theorems -/

/-- C1: the cache-key derivation is NOT collision-free on the pre-hash input.
The token scheme's prefix `token:` is exactly what a basic-auth pair with
email `"token"` produces, so the token `"p"` and the pair
`("token", "p")` feed the identical string `"token:p"` to SHA-256 and hence
share a cache key; likewise two distinct (email, password) pairs whose parts
shuffle a colon collide. This contradicts the claimed disjointness of the
scheme namespaces (the code's own comment says the prefix distinguishes
token keys from credential keys). -/
theorem cacheKey_namespaces_collide :
    getTokenCacheKey "p" = getCacheKey "token" "p" ∧
    getCacheKey "a:b" "c" = getCacheKey "a" "b:c" ∧
    ("a:b", "c") ≠ ("a", "b:c") := by
  refine ⟨?_, ?_, by decide⟩ <;> decide

/-- C3: failure atomicity. A token that does not validate against the
configured shared secret makes `authenticateWithToken` throw
`"Invalid authentication token"` with the module state (in particular the
client cache) completely untouched; and when an upstream login rejects, the
settling continuation (`finally` block) removes only the pending promise:
the client cache is unmodified, so no entry is created or overwritten for
the key. Every waiter of the single-flight attempt holds the same promise,
so all of them observe that same rejection. -/
theorem failed_auth_leaves_cache_unmodified (cfg : SessionConfig)
    (mcpAuthToken envEmail envPassword : Option String)
    (providedToken cacheKey : String) (authMethod : AuthMethod) (now : Int) (s : AuthSys)
    (hm : strTruthy mcpAuthToken = true)
    (hv : validateToken providedToken (mcpAuthToken.getD "") = false) :
    authenticateWithTokenStart cfg mcpAuthToken envEmail envPassword providedToken
        authMethod now s = (Except.error "Invalid authentication token", s) ∧
    (settleLoginFailure cacheKey s).clientCache = s.clientCache ∧
    mapLookup cacheKey (settleLoginFailure cacheKey s).authPromises = none := by
  refine ⟨?_, rfl, mapLookup_mapDelete_self _ _⟩
  unfold authenticateWithTokenStart
  simp [hm, hv]

/-- C3 witness: shared secret `"T"` configured, invalid bearer token `"bad"`:
the call errors with `"Invalid authentication token"` and the state is the
unchanged empty state (no cache entry created). -/
theorem failed_auth_concrete :
    authenticateWithTokenStart ⟨1000, 10000⟩ (some "T") none none "bad"
        AuthMethod.bearer 0 emptyAuthSys
      = (Except.error "Invalid authentication token", emptyAuthSys) :=
  (failed_auth_leaves_cache_unmodified ⟨1000, 10000⟩ (some "T") none none "bad" "k"
    AuthMethod.bearer 0 emptyAuthSys (by decide) (by decide)).1

/-- C4: once a login settles — success or failure alike — the `finally`
block has removed the pending entry for its credential key, so no pending
entry for a settled login remains; consequently a later authenticate call
for the same key after a failed attempt never takes the await-pending
branch (it is not permanently blocked). -/
theorem pendingAuth_deregistered_on_settle (cfg : SessionConfig)
    (cacheKey email password : String) (authMethod : AuthMethod)
    (now later : Int) (clientId : Nat) (s : AuthSys) :
    mapLookup cacheKey
        (settleLoginSuccess cacheKey email authMethod now clientId s).2.authPromises = none ∧
    mapLookup cacheKey (settleLoginFailure cacheKey s).authPromises = none ∧
    (∀ pid, (authenticateBasicStart cfg email password later
        (settleLoginFailure (getCacheKey email password) s)).1
          ≠ StartResult.awaitPending pid) := by
  refine ⟨mapLookup_mapDelete_self _ _, mapLookup_mapDelete_self _ _, ?_⟩
  intro pid
  simp only [authenticateBasicStart, settleLoginFailure, mapLookup_mapDelete_self]
  cases hc : mapLookup (getCacheKey email password) s.clientCache with
  | none => simp [startLoginPromise]
  | some cached =>
    by_cases hv : isClientValid cfg later cached
    · simp [hv]
    · simp [hv, startLoginPromise]

/-- C4 witness: settling a concrete successful login leaves no pending entry
for its key. -/
theorem pendingAuth_deregistered_concrete :
    mapLookup "k"
        (settleLoginSuccess "k" "e" AuthMethod.basic 0 3 emptyAuthSys).2.authPromises = none :=
  (pendingAuth_deregistered_on_settle ⟨1000, 10000⟩ "k" "e" "p" AuthMethod.basic
    0 0 3 emptyAuthSys).1

/-- C7: when no shared-secret token is configured (`MCP_AUTH_TOKEN` unset or
empty), any request without a header starting with `'Basic '` — in
particular one whose only credential is a bearer header — is rejected with
the hard failure `"Basic Auth required"`, leaving the state untouched; and
that rejection is distinct from the invalid-credentials error. -/
theorem basicAuth_required_when_no_shared_secret (cfg : SessionConfig)
    (mcpAuthToken envEmail envPassword authHeader queryToken : Option String)
    (decode : String → String) (now : Int) (s : AuthSys)
    (hm : strTruthy mcpAuthToken = false)
    (hb : strStartsWith authHeader "Basic " = false) :
    authenticateHttpRequestStart cfg mcpAuthToken envEmail envPassword decode
        authHeader queryToken now s = (Except.error "Basic Auth required", s) ∧
    ("Basic Auth required" : String) ≠ "Invalid authentication token" := by
  refine ⟨?_, by decide⟩
  unfold authenticateHttpRequestStart dispatchAuth basicAuthGate
  simp [hm, hb]

/-- C7 witness: no shared secret configured, request carries only
`Authorization: Bearer tok`: the call throws `"Basic Auth required"`. -/
theorem basicAuth_required_concrete :
    authenticateHttpRequestStart ⟨1000, 10000⟩ none none none id
        (some "Bearer tok") none 0 emptyAuthSys
      = (Except.error "Basic Auth required", emptyAuthSys) :=
  (basicAuth_required_when_no_shared_secret ⟨1000, 10000⟩ none none none
    (some "Bearer tok") none id 0 emptyAuthSys (by decide) (by decide)).1

/-- Helper for the thundering-herd argument: while a pending promise for the
credentials' key is registered, every further basic-path call awaits it and
changes nothing, however many calls arrive. -/
theorem runBasicStarts_all_await (cfg : SessionConfig) (email password : String)
    (now : Int) (pid : Nat) :
    ∀ (n : Nat) (s : AuthSys),
      mapLookup (getCacheKey email password) s.authPromises = some pid →
      runBasicStarts cfg email password now n s
        = (s, List.replicate n (StartResult.awaitPending pid)) := by
  intro n
  induction n with
  | zero => intro s h; simp [runBasicStarts]
  | succ n ih =>
    intro s h
    have hstep : authenticateBasicStart cfg email password now s
        = (StartResult.awaitPending pid, s) := by
      unfold authenticateBasicStart
      simp [h]
    simp [runBasicStarts, hstep, ih s h, List.replicate]

/-- C2: single-flight. (1) A basic-path call finding a pending promise for
its key returns that promise (to be awaited) and leaves the whole state —
in particular the client cache — unchanged, starting no upstream login;
(2) likewise the token path once the provided token validates; (3) for
`n + 1 ≥ 2` calls for the same never-cached credentials all arriving while
the first call's login is in flight, exactly one upstream login is started
(`loginsStarted` rises by one, one promise is registered, the cache is
untouched) and every later caller awaits the first caller's promise
`s.nextPromiseId`, so all resolve to that single attempt's result. -/
theorem single_flight_pending_and_thundering_herd (cfg : SessionConfig)
    (email password : String) (now : Int) (s s₂ : AuthSys) (pid n : Nat)
    (mcpAuthToken envEmail envPassword : Option String)
    (providedToken : String) (authMethod : AuthMethod) :
    (mapLookup (getCacheKey email password) s.authPromises = some pid →
      authenticateBasicStart cfg email password now s
        = (StartResult.awaitPending pid, s)) ∧
    (strTruthy mcpAuthToken = true →
      validateToken providedToken (mcpAuthToken.getD "") = true →
      mapLookup (getTokenCacheKey providedToken) s₂.authPromises = some pid →
      authenticateWithTokenStart cfg mcpAuthToken envEmail envPassword providedToken
          authMethod now s₂
        = (Except.ok (StartResult.awaitPending pid), s₂)) ∧
    (mapLookup (getCacheKey email password) s.authPromises = none →
      mapLookup (getCacheKey email password) s.clientCache = none →
      runBasicStarts cfg email password now (n + 1) s
        = ({ s with
               authPromises := mapSet (getCacheKey email password) s.nextPromiseId s.authPromises,
               nextPromiseId := s.nextPromiseId + 1,
               loginsStarted := s.loginsStarted + 1 },
           StartResult.started s.nextPromiseId
             :: List.replicate n (StartResult.awaitPending s.nextPromiseId))) := by
  refine ⟨?_, ?_, ?_⟩
  · intro h
    unfold authenticateBasicStart
    simp [h]
  · intro hm hv h
    unfold authenticateWithTokenStart
    simp [hm, hv, h]
  · intro hp hc
    have hstep : authenticateBasicStart cfg email password now s
        = (StartResult.started s.nextPromiseId,
           { s with
               authPromises := mapSet (getCacheKey email password) s.nextPromiseId s.authPromises,
               nextPromiseId := s.nextPromiseId + 1,
               loginsStarted := s.loginsStarted + 1 }) := by
      unfold authenticateBasicStart startLoginPromise
      simp [hp, hc]
    have hrest := runBasicStarts_all_await cfg email password now s.nextPromiseId n
      { s with
          authPromises := mapSet (getCacheKey email password) s.nextPromiseId s.authPromises,
          nextPromiseId := s.nextPromiseId + 1,
          loginsStarted := s.loginsStarted + 1 }
      (by simp [mapLookup_mapSet_self])
    simp [runBasicStarts, hstep, hrest]

/-- C2 witness: three calls for the fresh credentials `("e", "p")` against
the empty state perform exactly one login (counter 1) and yield
`started 0 :: awaitPending 0 :: awaitPending 0`. -/
theorem single_flight_concrete_run :
    runBasicStarts ⟨1000, 10000⟩ "e" "p" 5 (2 + 1) emptyAuthSys
      = ({ emptyAuthSys with
             authPromises := mapSet (getCacheKey "e" "p") emptyAuthSys.nextPromiseId
               emptyAuthSys.authPromises,
             nextPromiseId := emptyAuthSys.nextPromiseId + 1,
             loginsStarted := emptyAuthSys.loginsStarted + 1 },
         StartResult.started emptyAuthSys.nextPromiseId
           :: List.replicate 2 (StartResult.awaitPending emptyAuthSys.nextPromiseId)) :=
  (single_flight_pending_and_thundering_herd ⟨1000, 10000⟩ "e" "p" 5 emptyAuthSys
    emptyAuthSys 0 2 none none none "t" AuthMethod.bearer).2.2 rfl rfl

/-- The surviving cache after a sweep is exactly the validity filter. -/
theorem cleanupExpiredClients_fst (cfg : SessionConfig)
    (logoutResult : Nat → Except String Unit) (now : Int)
    (cache : List (String × SessionData)) :
    (cleanupExpiredClients cfg logoutResult now cache).1
      = cache.filter (fun p => isClientValid cfg now p.2) := by
  induction cache with
  | nil => rfl
  | cons hd tl ih =>
    obtain ⟨k₁, sd₁⟩ := hd
    by_cases hv : isClientValid cfg now sd₁
    · simp [cleanupExpiredClients, hv, ih, List.filter]
    · cases hl : logoutResult sd₁.sunsamaClient with
      | ok u => simp [cleanupExpiredClients, hv, hl, ih, List.filter]
      | error e => simp [cleanupExpiredClients, hv, hl, ih, List.filter]

/-- Every invalid entry's client handle gets its `logout()` invoked during
the sweep. -/
theorem cleanupExpiredClients_logs (cfg : SessionConfig)
    (logoutResult : Nat → Except String Unit) (now : Int) :
    ∀ (cache : List (String × SessionData)) (p : String × SessionData),
      p ∈ cache → isClientValid cfg now p.2 = false →
      p.2.sunsamaClient ∈ (cleanupExpiredClients cfg logoutResult now cache).2 := by
  intro cache
  induction cache with
  | nil => intro p hp; simp at hp
  | cons hd tl ih =>
    intro p hp hval
    obtain ⟨k₁, sd₁⟩ := hd
    by_cases hv : isClientValid cfg now sd₁
    · rcases List.mem_cons.mp hp with h₁ | h₁
      · exfalso
        rw [h₁] at hval
        simp only at hval
        rw [hval] at hv
        exact Bool.false_ne_true hv
      · simpa [cleanupExpiredClients, hv] using ih p h₁ hval
    · cases hl : logoutResult sd₁.sunsamaClient with
      | ok u =>
        simp only [cleanupExpiredClients, if_neg hv, hl]
        rcases List.mem_cons.mp hp with h₁ | h₁
        · rw [h₁]
          exact List.mem_cons_self _ _
        · exact List.mem_cons_of_mem _ (ih p h₁ hval)
      | error e =>
        simp only [cleanupExpiredClients, if_neg hv, hl]
        rcases List.mem_cons.mp hp with h₁ | h₁
        · rw [h₁]
          exact List.mem_cons_self _ _
        · exact List.mem_cons_of_mem _ (ih p h₁ hval)

/-- The sweep's outcome does not depend on whether any `logout()` throws:
the `try`/`catch` swallows the error and the iteration continues. -/
theorem cleanupExpiredClients_swallows_logout_errors (cfg : SessionConfig)
    (f g : Nat → Except String Unit) (now : Int) :
    ∀ cache : List (String × SessionData),
      cleanupExpiredClients cfg f now cache = cleanupExpiredClients cfg g now cache := by
  intro cache
  induction cache with
  | nil => rfl
  | cons hd tl ih =>
    obtain ⟨k₁, sd₁⟩ := hd
    by_cases hv : isClientValid cfg now sd₁
    · simp [cleanupExpiredClients, hv, ih]
    · cases hl₁ : f sd₁.sunsamaClient <;> cases hl₂ : g sd₁.sunsamaClient <;>
        simp [cleanupExpiredClients, hv, hl₁, hl₂, ih]

/-- Validity unfolded to the arithmetic of the two TTL bounds. -/
theorem isClientValid_iff (cfg : SessionConfig) (now : Int) (sd : SessionData) :
    isClientValid cfg now sd = true ↔
      (now - sd.lastAccessedAt < cfg.CLIENT_IDLE_TIMEOUT ∧
       now - sd.createdAt < cfg.CLIENT_MAX_LIFETIME) := by
  simp [isClientValid]

/-- C6: after `cleanupExpiredClients` at instant `now`, an entry survives iff
it was present and both `now - lastAccessedAt < CLIENT_IDLE_TIMEOUT` and
`now - createdAt < CLIENT_MAX_LIFETIME` hold — so every entry at or past the
idle timeout is absent, every entry at or past the max lifetime is absent
even if just accessed, and every still-valid entry remains; each removed
entry's client handle has `logout()` invoked (before its deletion, per the
statement order of the source); and the sweep's result is identical whatever
subset of the logouts throws — the error is swallowed, never propagated. -/
theorem sweepExpired_removes_exactly_expired (cfg : SessionConfig)
    (f g : Nat → Except String Unit) (now : Int)
    (cache : List (String × SessionData)) :
    (∀ k sd, (k, sd) ∈ (cleanupExpiredClients cfg f now cache).1 ↔
      ((k, sd) ∈ cache ∧ now - sd.lastAccessedAt < cfg.CLIENT_IDLE_TIMEOUT ∧
        now - sd.createdAt < cfg.CLIENT_MAX_LIFETIME)) ∧
    (∀ k sd, (k, sd) ∈ cache →
      (cfg.CLIENT_IDLE_TIMEOUT ≤ now - sd.lastAccessedAt ∨
        cfg.CLIENT_MAX_LIFETIME ≤ now - sd.createdAt) →
      sd.sunsamaClient ∈ (cleanupExpiredClients cfg f now cache).2) ∧
    cleanupExpiredClients cfg f now cache = cleanupExpiredClients cfg g now cache := by
  refine ⟨?_, ?_, cleanupExpiredClients_swallows_logout_errors cfg f g now cache⟩
  · intro k sd
    rw [cleanupExpiredClients_fst, List.mem_filter]
    constructor
    · rintro ⟨h₁, h₂⟩
      exact ⟨h₁, (isClientValid_iff cfg now sd).mp h₂⟩
    · rintro ⟨h₁, h₂⟩
      exact ⟨h₁, (isClientValid_iff cfg now sd).mpr h₂⟩
  · intro k sd hmem hexp
    have hval : isClientValid cfg now sd = false := by
      rcases hexp with h | h
      · have h₂ : ¬ (now - sd.lastAccessedAt < cfg.CLIENT_IDLE_TIMEOUT) := not_lt.mpr h
        simp [isClientValid, h₂]
      · have h₂ : ¬ (now - sd.createdAt < cfg.CLIENT_MAX_LIFETIME) := not_lt.mpr h
        simp [isClientValid, h₂]
    exact cleanupExpiredClients_logs cfg f now cache (k, sd) hmem hval

/-- C6 witness: a cache with one idle-expired entry (idle 200 ≥ 100) and one
fresh entry: after the sweep the fresh entry remains, the expired one is
gone and its client 7 was logged out. -/
theorem sweepExpired_concrete :
    (("k2", (⟨8, "b", 150, 150, none⟩ : SessionData))
        ∈ (cleanupExpiredClients ⟨100, 10000⟩ (fun _ => Except.error "boom") 200
            [("k1", ⟨7, "a", 0, 0, none⟩), ("k2", ⟨8, "b", 150, 150, none⟩)]).1) ∧
    (7 ∈ (cleanupExpiredClients ⟨100, 10000⟩ (fun _ => Except.error "boom") 200
            [("k1", ⟨7, "a", 0, 0, none⟩), ("k2", ⟨8, "b", 150, 150, none⟩)]).2) := by
  have h := sweepExpired_removes_exactly_expired ⟨100, 10000⟩
    (fun _ => Except.error "boom") (fun _ => Except.ok ()) 200
    [("k1", ⟨7, "a", 0, 0, none⟩), ("k2", ⟨8, "b", 150, 150, none⟩)]
  refine ⟨(h.1 "k2" ⟨8, "b", 150, 150, none⟩).mpr (by decide), ?_⟩
  exact h.2.1 "k1" ⟨7, "a", 0, 0, none⟩ (by decide) (by decide)

/-- C8: frame condition on reuse. A basic-path call that finds a valid
cached entry returns it with `lastAccessedAt` set to `now` and `authMethod`
set to `"basic"`, while `createdAt`, the client handle and the email are
untouched; in the new state only that key's entry changed (every other key
looks up unchanged), the pending map and the login counter are untouched;
and the token path behaves the same with `authMethod` set to the method that
carried the token. -/
theorem cached_reuse_frame_condition (cfg : SessionConfig)
    (email password : String) (now : Int) (s s₂ : AuthSys) (sd sd₂ : SessionData)
    (mcpAuthToken envEmail envPassword : Option String)
    (providedToken : String) (authMethod : AuthMethod)
    (hp : mapLookup (getCacheKey email password) s.authPromises = none)
    (hc : mapLookup (getCacheKey email password) s.clientCache = some sd)
    (hv : isClientValid cfg now sd = true) :
    authenticateBasicStart cfg email password now s
      = (StartResult.reuseCached (touchSession sd now AuthMethod.basic),
         { s with
             clientCache := mapSet (getCacheKey email password)
               (touchSession sd now AuthMethod.basic) s.clientCache }) ∧
    (touchSession sd now AuthMethod.basic).createdAt = sd.createdAt ∧
    (touchSession sd now AuthMethod.basic).sunsamaClient = sd.sunsamaClient ∧
    (touchSession sd now AuthMethod.basic).email = sd.email ∧
    (touchSession sd now AuthMethod.basic).lastAccessedAt = now ∧
    (touchSession sd now AuthMethod.basic).authMethod = some AuthMethod.basic ∧
    mapLookup (getCacheKey email password)
        (authenticateBasicStart cfg email password now s).2.clientCache
      = some (touchSession sd now AuthMethod.basic) ∧
    (∀ k, k ≠ getCacheKey email password →
      mapLookup k (authenticateBasicStart cfg email password now s).2.clientCache
        = mapLookup k s.clientCache) ∧
    (authenticateBasicStart cfg email password now s).2.authPromises = s.authPromises ∧
    (authenticateBasicStart cfg email password now s).2.loginsStarted = s.loginsStarted ∧
    (strTruthy mcpAuthToken = true →
      validateToken providedToken (mcpAuthToken.getD "") = true →
      mapLookup (getTokenCacheKey providedToken) s₂.authPromises = none →
      mapLookup (getTokenCacheKey providedToken) s₂.clientCache = some sd₂ →
      isClientValid cfg now sd₂ = true →
      authenticateWithTokenStart cfg mcpAuthToken envEmail envPassword providedToken
          authMethod now s₂
        = (Except.ok (StartResult.reuseCached (touchSession sd₂ now authMethod)),
           { s₂ with
               clientCache := mapSet (getTokenCacheKey providedToken)
                 (touchSession sd₂ now authMethod) s₂.clientCache })) := by
  have hmain : authenticateBasicStart cfg email password now s
      = (StartResult.reuseCached (touchSession sd now AuthMethod.basic),
         { s with
             clientCache := mapSet (getCacheKey email password)
               (touchSession sd now AuthMethod.basic) s.clientCache }) := by
    unfold authenticateBasicStart touchSession
    simp [hp, hc, hv]
  refine ⟨hmain, rfl, rfl, rfl, rfl, rfl, ?_, ?_, ?_, ?_, ?_⟩
  · rw [hmain]
    exact mapLookup_mapSet_self _ _ _
  · intro k hk
    rw [hmain]
    exact mapLookup_mapSet_ne _ _ _ _ hk
  · rw [hmain]
  · rw [hmain]
  · intro hm hvt hp₂ hc₂ hv₂
    unfold authenticateWithTokenStart touchSession
    simp [hm, hvt, hp₂, hc₂, hv₂]

/-- C8 witness: reusing the valid entry for `("e", "p")` at `now = 5` yields
the touched entry (timestamps: created 0, last accessed 5) and only that
key slot rewritten. -/
theorem cached_reuse_concrete :
    authenticateBasicStart ⟨1000, 10000⟩ "e" "p" 5
        { emptyAuthSys with
            clientCache := [(getCacheKey "e" "p", ⟨3, "e", 0, 0, none⟩)] }
      = (StartResult.reuseCached (touchSession ⟨3, "e", 0, 0, none⟩ 5 AuthMethod.basic),
         { emptyAuthSys with
             clientCache := mapSet (getCacheKey "e" "p")
               (touchSession ⟨3, "e", 0, 0, none⟩ 5 AuthMethod.basic)
               [(getCacheKey "e" "p", ⟨3, "e", 0, 0, none⟩)] }) :=
  (cached_reuse_frame_condition ⟨1000, 10000⟩ "e" "p" 5
    { emptyAuthSys with clientCache := [(getCacheKey "e" "p", ⟨3, "e", 0, 0, none⟩)] }
    emptyAuthSys ⟨3, "e", 0, 0, none⟩ ⟨3, "e", 0, 0, none⟩ none none none "t"
    AuthMethod.bearer rfl (by decide) (by decide)).1

/-- C9: `lastAccessedAt >= createdAt` holds for every cache entry in every
reachable state, given wall-clock monotonicity (`now` is at or after every
present entry's creation). A freshly created entry has both timestamps equal
(first conjunct), a touch on reuse writes `lastAccessedAt := now ≥
createdAt`, and deletion, failure settling and sweeping only shrink or keep
entries — so every operation of the module preserves the invariant. -/
theorem cache_timestamp_invariant_preserved (cfg : SessionConfig)
    (mcpAuthToken envEmail envPassword : Option String)
    (providedToken email password cacheKey : String) (authMethod : AuthMethod)
    (clientId : Nat) (now : Int) (f : Nat → Except String Unit) (s : AuthSys)
    (hinv : cacheCreatedLeLast s.clientCache)
    (hle : cacheCreatedLe s.clientCache now) :
    (settleLoginSuccess cacheKey email authMethod now clientId s).1.createdAt
      = (settleLoginSuccess cacheKey email authMethod now clientId s).1.lastAccessedAt ∧
    cacheCreatedLeLast (authenticateBasicStart cfg email password now s).2.clientCache ∧
    cacheCreatedLeLast (authenticateWithTokenStart cfg mcpAuthToken envEmail
        envPassword providedToken authMethod now s).2.clientCache ∧
    cacheCreatedLeLast (settleLoginSuccess cacheKey email authMethod now clientId s).2.clientCache ∧
    cacheCreatedLeLast (settleLoginFailure cacheKey s).clientCache ∧
    cacheCreatedLeLast (cleanupExpiredClients cfg f now s.clientCache).1 := by
  have htouch : ∀ (key : String) (cached : SessionData) (m : AuthMethod),
      mapLookup key s.clientCache = some cached →
      cacheCreatedLeLast (mapSet key (touchSession cached now m) s.clientCache) := by
    intro key cached m hc
    intro p hp
    rcases mem_mapSet p key (touchSession cached now m) s.clientCache hp with h₁ | h₁
    · have h₂ := hle (key, cached) (mapLookup_mem key cached s.clientCache hc)
      rw [h₁]
      simpa [touchSession] using h₂
    · exact hinv p h₁
  have hdel : ∀ key : String, cacheCreatedLeLast (mapDelete key s.clientCache) := by
    intro key p hp
    exact hinv p (mem_mapDelete p key s.clientCache hp)
  refine ⟨rfl, ?_, ?_, ?_, ?_, ?_⟩
  · unfold authenticateBasicStart
    cases hp : mapLookup (getCacheKey email password) s.authPromises with
    | some pid => simpa [hp] using hinv
    | none =>
      cases hc : mapLookup (getCacheKey email password) s.clientCache with
      | none => simpa [hp, hc, startLoginPromise] using hinv
      | some cached =>
        by_cases hv : isClientValid cfg now cached
        · simpa [hp, hc, hv, touchSession] using htouch _ cached AuthMethod.basic hc
        · simpa [hp, hc, hv, startLoginPromise] using hdel (getCacheKey email password)
  · unfold authenticateWithTokenStart
    by_cases hm : strTruthy mcpAuthToken
    · by_cases hvt : validateToken providedToken (mcpAuthToken.getD "")
      · cases hp : mapLookup (getTokenCacheKey providedToken) s.authPromises with
        | some pid => simpa [hm, hvt, hp] using hinv
        | none =>
          cases hc : mapLookup (getTokenCacheKey providedToken) s.clientCache with
          | none =>
            by_cases he : !(strTruthy envEmail) || !(strTruthy envPassword)
            · simpa [hm, hvt, hp, hc, tokenEnvGateThenStart, he] using hinv
            · simpa [hm, hvt, hp, hc, tokenEnvGateThenStart, he, startLoginPromise]
                using hinv
          | some cached =>
            by_cases hv : isClientValid cfg now cached
            · simpa [hm, hvt, hp, hc, hv, touchSession]
                using htouch _ cached authMethod hc
            · by_cases he : !(strTruthy envEmail) || !(strTruthy envPassword)
              · simpa [hm, hvt, hp, hc, hv, tokenEnvGateThenStart, he]
                  using hdel (getTokenCacheKey providedToken)
              · simpa [hm, hvt, hp, hc, hv, tokenEnvGateThenStart, he, startLoginPromise]
                  using hdel (getTokenCacheKey providedToken)
      · simpa [hm, hvt] using hinv
    · simpa [hm] using hinv
  · unfold settleLoginSuccess
    intro p hp
    rcases mem_mapSet p cacheKey _ s.clientCache hp with h₁ | h₁
    · rw [h₁]
    · exact hinv p h₁
  · exact hinv
  · rw [cleanupExpiredClients_fst]
    intro p hp
    exact hinv p (List.mem_of_mem_filter hp)

/-- C9 witness: from the empty state at `now = 7` (monotonicity vacuous),
settling a successful login yields a cache satisfying the invariant. -/
theorem cache_timestamp_concrete :
    cacheCreatedLeLast
      (settleLoginSuccess "k" "e" AuthMethod.basic 7 1 emptyAuthSys).2.clientCache :=
  (cache_timestamp_invariant_preserved ⟨1000, 10000⟩ none none none "t" "e" "p" "k"
    AuthMethod.basic 1 7 (fun _ => Except.ok ()) emptyAuthSys
    (by intro p hp; simp [emptyAuthSys] at hp)
    (by intro p hp; simp [emptyAuthSys] at hp)).2.2.2.1

/-- `takeWhile (· != ':')` over a list that starts with a colon-free block:
exactly the block before the first colon. -/
theorem takeWhile_ne_colon_append (l r : List Char) (h : ∀ c ∈ l, c ≠ ':') :
    (l ++ ':' :: r).takeWhile (fun c => c != ':') = l := by
  induction l with
  | nil => simp [List.takeWhile_cons]
  | cons c cs ih =>
    have hc : c ≠ ':' := h c (List.mem_cons_self c cs)
    simp [List.takeWhile_cons, hc, ih (fun d hd => h d (List.mem_cons_of_mem _ hd))]

/-- `dropWhile (· != ':')` over the same shape: from the first colon on. -/
theorem dropWhile_ne_colon_append (l r : List Char) (h : ∀ c ∈ l, c ≠ ':') :
    (l ++ ':' :: r).dropWhile (fun c => c != ':') = ':' :: r := by
  induction l with
  | nil => simp [List.dropWhile_cons]
  | cons c cs ih =>
    have hc : c ≠ ':' := h c (List.mem_cons_self c cs)
    simp [List.dropWhile_cons, hc, ih (fun d hd => h d (List.mem_cons_of_mem _ hd))]

/-- Splitting behaviour of `parseBasicAuthDecoded` on a payload assembled
from a non-empty colon-free email, a colon, and an arbitrary password. -/
theorem parseBasicAuthDecoded_append (email password : String)
    (hne : email ≠ "") (hnc : email.toList.contains ':' = false) :
    parseBasicAuthDecoded (email ++ ":" ++ password)
      = Except.ok { email := email, password := password } := by
  have hmem : ∀ c ∈ email.data, c ≠ ':' := by
    intro c hcmem hq
    subst hq
    have h₂ : email.toList.contains ':' = true := by
      show email.data.contains ':' = true
      simpa using hcmem
    rw [hnc] at h₂
    exact Bool.false_ne_true h₂
  have hl : (email ++ ":" ++ password).toList = email.data ++ ':' :: password.data := by
    show (email ++ ":" ++ password).data = email.data ++ ':' :: password.data
    rw [String.data_append, String.data_append,
      show (":" : String).data = [':'] from rfl]
    simp
  have h₁ : (email.data ++ ':' :: password.data).contains ':' = true := by simp
  have h₂ := takeWhile_ne_colon_append email.data password.data hmem
  have h₃ := dropWhile_ne_colon_append email.data password.data hmem
  unfold parseBasicAuthDecoded
  rw [hl]
  simp [h₁, h₂, h₃, hne, show String.mk email.data = email from rfl,
    show String.mk password.data = password from rfl]

/-- `parseBasicAuthDecoded` throws exactly when the payload has no colon or
starts with one (i.e. the part before the first colon is empty). -/
theorem parseBasicAuthDecoded_error_iff (credentials : String) :
    (∃ e, parseBasicAuthDecoded credentials = Except.error e) ↔
      (credentials.toList.contains ':' = false ∨
       credentials.toList.head? = some ':') := by
  by_cases hcol : credentials.toList.contains ':' = true
  · cases hl : credentials.toList with
    | nil =>
      rw [hl] at hcol
      simp at hcol
    | cons c cs =>
      by_cases hc : c = ':'
      · subst hc
        have hparse : parseBasicAuthDecoded credentials
            = Except.error "Invalid Basic Auth format" := by
          unfold parseBasicAuthDecoded
          rw [hl]
          simp [List.takeWhile_cons, show String.mk ([] : List Char) = "" from rfl]
        constructor
        · intro _
          exact Or.inr rfl
        · intro _
          exact ⟨_, hparse⟩
      · have hcontains : (c :: cs).contains ':' = true := by
          rw [← hl]
          exact hcol
        have hd : ':' ∈ cs := by
          have h₅ : ':' ∈ c :: cs := by simpa using hcontains
          rcases List.mem_cons.mp h₅ with h₆ | h₆
          · exact absurd h₆.symm hc
          · exact h₆
        have hok : ∀ e, parseBasicAuthDecoded credentials ≠ Except.error e := by
          intro e
          unfold parseBasicAuthDecoded
          rw [hl]
          by_cases hstr : String.mk (c :: List.takeWhile (fun x => x != ':') cs) = ""
          · exfalso
            have h₄ := congrArg String.data hstr
            simp at h₄
          · simp [hd, hc, hstr, List.takeWhile_cons]
        constructor
        · intro h₄
          obtain ⟨e, he⟩ := h₄
          exact absurd he (hok e)
        · intro h₄
          exfalso
          rcases h₄ with h₄ | h₄
          · rw [h₄] at hcontains
            exact Bool.false_ne_true hcontains
          · simp at h₄
            exact hc h₄
  · have hnm : ':' ∉ credentials.data := by
      intro hmem
      apply hcol
      show credentials.data.contains ':' = true
      simpa using hmem
    have hparse : parseBasicAuthDecoded credentials
        = Except.error "Invalid Basic Auth format" := by
      unfold parseBasicAuthDecoded
      simp [hnm]
    constructor
    · intro _
      exact Or.inl (by simpa using hcol)
    · intro _
      exact ⟨_, hparse⟩

/-- C10: `parseBasicAuth` splits at the first colon of the decoded payload.
Whenever the decoded payload is `email ++ ":" ++ password` with `email`
non-empty and colon-free — i.e. it contains a colon with a non-empty part
before the first one — parsing succeeds with exactly that email and
password, the password possibly empty; and it throws
`"Invalid Basic Auth format"` exactly when the decoded payload contains no
colon or its first character is a colon (empty part before the first
colon). -/
theorem parseBasicAuth_first_colon_split :
    (∀ (decode : String → String) (authHeader email password : String),
        decode (jsStripFirst authHeader "Basic ") = email ++ ":" ++ password →
        email ≠ "" → email.toList.contains ':' = false →
        parseBasicAuth decode authHeader
          = Except.ok { email := email, password := password }) ∧
    (∀ (decode : String → String) (authHeader : String),
        (∃ e, parseBasicAuth decode authHeader = Except.error e) ↔
          ((decode (jsStripFirst authHeader "Basic ")).toList.contains ':' = false ∨
           (decode (jsStripFirst authHeader "Basic ")).toList.head? = some ':')) := by
  constructor
  · intro decode authHeader email password hdec hne hnc
    have h := parseBasicAuthDecoded_append email password hne hnc
    rw [← hdec] at h
    exact h
  · intro decode authHeader
    exact parseBasicAuthDecoded_error_iff (decode (jsStripFirst authHeader "Basic "))

/-- C10 witness: a payload decoding to `"user:"` — colon present, non-empty
email, empty password — parses to `("user", "")`. -/
theorem parseBasicAuth_split_concrete :
    parseBasicAuth (fun _ => "user" ++ ":" ++ "") "Basic xyz"
      = Except.ok { email := "user", password := "" } :=
  parseBasicAuth_first_colon_split.1 (fun _ => "user" ++ ":" ++ "") "Basic xyz"
    "user" "" rfl (by decide) (by decide)

/-- C5 counterexample: with `MCP_API_KEY = "k"` configured and a matching
`X-MCP-API-Key: k` header, a successful session initialization stores the
synthetic api-key `SessionData` — not a value produced by
`authenticateHttpRequest` — and touches no cache state; so not every
successful initialization's stored `SessionData` comes from the
authenticate path. -/
theorem apiKey_path_bypasses_authenticator :
    (initializeNewSession ⟨1000, 10000⟩ (some "k") (some "k") none none none
        id none 0 emptyAuthSys).1 = InitResult.apiKeySession ∧
    initFromAuthenticate
        (initializeNewSession ⟨1000, 10000⟩ (some "k") (some "k") none none none
          id none 0 emptyAuthSys).1 = false ∧
    (initializeNewSession ⟨1000, 10000⟩ (some "k") (some "k") none none none
        id none 0 emptyAuthSys).2.clientCache = [] := by
  refine ⟨by decide, by decide, by decide⟩

/-- C5 (amended): whenever the API-key shortcut is not taken — in particular
whenever `MCP_API_KEY` is not configured — the `SessionData` stored for a
newly initialized session is exactly the value produced by
`authenticateHttpRequest` (the single-flight authenticator path), a failed
authentication propagates as the initialization failure with the same state,
and the stored data is never the synthetic api-key object; the dispatcher
itself holds no cache state (it is a pure function of the request and the
module state). -/
theorem non_apiKey_init_funnels_through_authenticator (cfg : SessionConfig)
    (expectedKey apiKeyHeader mcpAuthToken envEmail envPassword : Option String)
    (decode : String → String) (authHeader : Option String) (now : Int) (s : AuthSys)
    (h : usesApiKeyPath expectedKey apiKeyHeader = false) :
    (∀ r s₁, initializeNewSession cfg expectedKey apiKeyHeader mcpAuthToken envEmail
        envPassword decode authHeader now s = (InitResult.authSession r, s₁) →
      authenticateHttpRequestStart cfg mcpAuthToken envEmail envPassword decode
        authHeader none now s = (Except.ok r, s₁)) ∧
    (∀ e s₁, initializeNewSession cfg expectedKey apiKeyHeader mcpAuthToken envEmail
        envPassword decode authHeader now s = (InitResult.authFailed e, s₁) →
      authenticateHttpRequestStart cfg mcpAuthToken envEmail envPassword decode
        authHeader none now s = (Except.error e, s₁)) ∧
    (initializeNewSession cfg expectedKey apiKeyHeader mcpAuthToken envEmail
        envPassword decode authHeader now s).1 ≠ InitResult.apiKeySession := by
  have hcore : initializeNewSession cfg expectedKey apiKeyHeader mcpAuthToken envEmail
      envPassword decode authHeader now s
      = (match authenticateHttpRequestStart cfg mcpAuthToken envEmail envPassword decode
            authHeader none now s with
         | (Except.error e, s₁) => (InitResult.authFailed e, s₁)
         | (Except.ok r, s₁) => (InitResult.authSession r, s₁)) := by
    unfold initializeNewSession
    simp [h]
  rcases hres : authenticateHttpRequestStart cfg mcpAuthToken envEmail envPassword decode
      authHeader none now s with ⟨res, s₁⟩
  rw [hres] at hcore
  cases res with
  | error e₀ =>
    have hcore₂ : initializeNewSession cfg expectedKey apiKeyHeader mcpAuthToken envEmail
        envPassword decode authHeader now s = (InitResult.authFailed e₀, s₁) := hcore
    refine ⟨?_, ?_, ?_⟩
    · intro r s₂ hinit
      rw [hcore₂] at hinit
      exact absurd (congrArg Prod.fst hinit) (by simp)
    · intro e s₂ hinit
      rw [hcore₂] at hinit
      have h₁ : InitResult.authFailed e₀ = InitResult.authFailed e :=
        congrArg Prod.fst hinit
      have h₂ : s₁ = s₂ := congrArg Prod.snd hinit
      injection h₁ with h₃
      subst h₃
      subst h₂
      rfl
    · rw [hcore₂]
      simp
  | ok r₀ =>
    have hcore₂ : initializeNewSession cfg expectedKey apiKeyHeader mcpAuthToken envEmail
        envPassword decode authHeader now s = (InitResult.authSession r₀, s₁) := hcore
    refine ⟨?_, ?_, ?_⟩
    · intro r s₂ hinit
      rw [hcore₂] at hinit
      have h₁ : InitResult.authSession r₀ = InitResult.authSession r :=
        congrArg Prod.fst hinit
      have h₂ : s₁ = s₂ := congrArg Prod.snd hinit
      injection h₁ with h₃
      subst h₃
      subst h₂
      rfl
    · intro e s₂ hinit
      rw [hcore₂] at hinit
      exact absurd (congrArg Prod.fst hinit) (by simp)
    · rw [hcore₂]
      simp

/-- C5 witness: with no API key configured, a new initialization's outcome is
never the synthetic api-key session. -/
theorem non_apiKey_init_concrete :
    (initializeNewSession ⟨1000, 10000⟩ none none none none none id none 0
        emptyAuthSys).1 ≠ InitResult.apiKeySession :=
  (non_apiKey_init_funnels_through_authenticator ⟨1000, 10000⟩ none none none none
    none id none 0 emptyAuthSys rfl).2.2
